import Mathlib

/-!
Verification development for the deepsplines spline engine
(src/models/deepBspline_base.py and src/models/basemodel.py).

The numeric kernel is embedded over exact rationals:
tensors of spline coefficients become lists of rationals, the
per-element clamp/floor/interpolate pipeline of DeepBSpline_Func
becomes a pure function, and the in-place scatter_add_ accumulation
of the backward pass becomes a left fold over the input elements.
-/

/-- Spline State: one group of num_activations independent splines,
each with size coefficients on a grid of spacing grid
(data model of DeepBSplineBase; the abstract coefficients_vect_
property is the flattened coefficient storage of the group). -/
structure SplineState where
  num_activations : ℕ
  size : ℕ
  grid : ℚ
  coefficients_vect : List ℚ
  deriving DecidableEq, Repr

/-- Python size // 2 (integer division). -/
def halfS (s : SplineState) : ℕ := s.size / 2

/-- init_zero_knot_indexes: zero_knot_indexes[i] = i*size + size//2. -/
def zero_knot_indexes (s : SplineState) (i : ℕ) : ℤ :=
  (i : ℤ) * s.size + halfS s

/-- Lookup in the flattened coefficient vector (coefficients_vect[k]).
Indexes produced by the evaluator are nonnegative whenever grid > 0,
so a toNat lookup with default 0 is faithful on that domain. -/
def cvGet (s : SplineState) (k : ℤ) : ℚ :=
  s.coefficients_vect.getD k.toNat 0

/-- coefficients[i, j]: the 2D view of coefficients_vect (row-major). -/
def coeff (s : SplineState) (i j : ℕ) : ℚ :=
  s.coefficients_vect.getD (i * s.size + j) 0

/-- Left clamp bound -(grid * (size//2)) of DeepBSpline_Func.forward. -/
def leftB (s : SplineState) : ℚ := -(s.grid * (halfS s : ℚ))

/-- Right clamp bound grid * (size//2 - 1) of DeepBSpline_Func.forward. -/
def rightB (s : SplineState) : ℚ := s.grid * ((halfS s : ℚ) - 1)

/-- x.clamp(min = leftB, max = rightB). -/
def x_clamped (s : SplineState) (x : ℚ) : ℚ :=
  min (max x (leftB s)) (rightB s)

/-- floored_x = torch.floor(x_clamped / grid): the left-knot offset. -/
def floored_x (s : SplineState) (x : ℚ) : ℤ :=
  ⌊x_clamped s x / s.grid⌋

/-- fracs = x_clamped/grid - floored_x: distance to the left knot. -/
def fracs (s : SplineState) (x : ℚ) : ℚ :=
  x_clamped s x / s.grid - (floored_x s x : ℚ)

/-- indexes = zero_knot_indexes + floored_x: flat index of the left
coefficient in coefficients_vect, for an element of activation unit i. -/
def indexes (s : SplineState) (i : ℕ) (x : ℚ) : ℤ :=
  zero_knot_indexes s i + floored_x s x

/-- The B-spline interpolation part of the output:
coefficients_vect[indexes+1]*fracs + coefficients_vect[indexes]*(1-fracs). -/
def activation_base (s : SplineState) (i : ℕ) (x : ℚ) : ℚ :=
  cvGet s (indexes s i x + 1) * fracs s x
    + cvGet s (indexes s i x) * (1 - fracs s x)

/-- leftmost_slope = (coefficients[:,1] - coefficients[:,0]) / grid,
computed inside DeepBSpline_Func.forward when save_memory is on. -/
def leftmost_slope (s : SplineState) (i : ℕ) : ℚ :=
  (coeff s i 1 - coeff s i 0) / s.grid

/-- rightmost_slope = (coefficients[:,-1] - coefficients[:,-2]) / grid. -/
def rightmost_slope (s : SplineState) (i : ℕ) : ℚ :=
  (coeff s i (s.size - 1) - coeff s i (s.size - 2)) / s.grid

/-- leftExtrapolations = (x + grid*(size//2)).clamp(max=0) * leftmost_slope. -/
def leftExtrapolation (s : SplineState) (i : ℕ) (x : ℚ) : ℚ :=
  min (x + s.grid * (halfS s : ℚ)) 0 * leftmost_slope s i

/-- rightExtrapolations = (x - grid*(size//2-1)).clamp(min=0) * rightmost_slope. -/
def rightExtrapolation (s : SplineState) (i : ℕ) (x : ℚ) : ℚ :=
  max (x - s.grid * ((halfS s : ℚ) - 1)) 0 * rightmost_slope s i

/-- linearExtrapolations = leftExtrapolations + rightExtrapolations,
as computed inside DeepBSpline_Func.forward (save_memory branch). -/
def linearExtrapolation (s : SplineState) (i : ℕ) (x : ℚ) : ℚ :=
  leftExtrapolation s i x + rightExtrapolation s i x

/-- DeepBSpline_Func.forward output with save_memory=False:
only the B-spline interpolation. -/
def func_forward_noSave (s : SplineState) (i : ℕ) (x : ℚ) : ℚ :=
  activation_base s i x

/-- DeepBSpline_Func.forward output with save_memory=True:
interpolation plus the folded-in linear extrapolation. -/
def func_forward_save (s : SplineState) (i : ℕ) (x : ℚ) : ℚ :=
  activation_base s i x + linearExtrapolation s i x

/-- The slope/extrapolation computation repeated in
DeepBSplineBase.forward (save_memory=False branch, lines 262-270);
textually separate from the copy inside DeepBSpline_Func.forward. -/
def outer_leftmost_slope (s : SplineState) (i : ℕ) : ℚ :=
  (coeff s i 1 - coeff s i 0) / s.grid

/-- Outer copy of rightmost_slope (DeepBSplineBase.forward). -/
def outer_rightmost_slope (s : SplineState) (i : ℕ) : ℚ :=
  (coeff s i (s.size - 1) - coeff s i (s.size - 2)) / s.grid

/-- Outer copy of linearExtrapolations (DeepBSplineBase.forward). -/
def outer_linearExtrapolation (s : SplineState) (i : ℕ) (x : ℚ) : ℚ :=
  min (x + s.grid * (halfS s : ℚ)) 0 * outer_leftmost_slope s i
    + max (x - s.grid * ((halfS s : ℚ) - 1)) 0 * outer_rightmost_slope s i

/-- Full activation output, save_memory=False: Func output plus the
extrapolation added outside the autograd function. -/
def forward_noSave (s : SplineState) (i : ℕ) (x : ℚ) : ℚ :=
  func_forward_noSave s i x + outer_linearExtrapolation s i x

/-- Full activation output, save_memory=True: Func output only. -/
def forward_save (s : SplineState) (i : ℕ) (x : ℚ) : ℚ :=
  func_forward_save s i x

/-- Backward-pass recomputation of x_clamped (save_memory=True,
DeepBSpline_Func.backward lines 109-110; a textual copy of the
forward computation, not a cached value). -/
def bwd_x_clamped (s : SplineState) (x : ℚ) : ℚ :=
  min (max x (leftB s)) (rightB s)

/-- Backward-pass recomputation of floored_x. -/
def bwd_floored_x (s : SplineState) (x : ℚ) : ℤ :=
  ⌊bwd_x_clamped s x / s.grid⌋

/-- Backward-pass recomputation of fracs. -/
def bwd_fracs (s : SplineState) (x : ℚ) : ℚ :=
  bwd_x_clamped s x / s.grid - (bwd_floored_x s x : ℚ)

/-- Backward-pass recomputation of indexes. -/
def bwd_indexes (s : SplineState) (i : ℕ) (x : ℚ) : ℤ :=
  zero_knot_indexes s i + bwd_floored_x s x

/-- grad_x = (coefficients_vect[indexes+1] - coefficients_vect[indexes])
/ grid * grad_out, with the cached fracs/indexes (save_memory=False). -/
def grad_x_noSave (s : SplineState) (i : ℕ) (x g : ℚ) : ℚ :=
  (cvGet s (indexes s i x + 1) - cvGet s (indexes s i x)) / s.grid * g

/-- grad_x with the recomputed indexes (save_memory=True). -/
def grad_x_save (s : SplineState) (i : ℕ) (x g : ℚ) : ℚ :=
  (cvGet s (bwd_indexes s i x + 1) - cvGet s (bwd_indexes s i x)) / s.grid * g

/-- One scalar element of the (reshaped) input batch: its activation
unit (dimension-1 position), its value, and its upstream gradient. -/
structure ActElem where
  unit : ℕ
  x : ℚ
  g : ℚ
  deriving DecidableEq, Repr

/-- Pointwise in-place addition at one flat index (one scatter target). -/
def addAt (f : ℕ → ℚ) (k : ℕ) (v : ℚ) : ℕ → ℚ :=
  fun j => if j = k then f j + v else f j

/-- grad.scatter_add_(0, keys, vals): sequential accumulation over all
input elements into a dense gradient buffer. -/
def scatter_add (f : ℕ → ℚ) (es : List ActElem)
    (key : ActElem → ℕ) (val : ActElem → ℚ) : ℕ → ℚ :=
  es.foldl (fun acc e => addAt acc (key e) (val e)) f

/-- The two scatter_add_ calls of DeepBSpline_Func.backward
(lines 125-129): frac*g into indexes+1, (1-frac)*g into indexes,
starting from torch.zeros_like(coefficients_vect). -/
def grad_coefficients_noSave (s : SplineState) (es : List ActElem) : ℕ → ℚ :=
  scatter_add
    (scatter_add (fun _ => 0) es
      (fun e => (indexes s e.unit e.x + 1).toNat) (fun e => fracs s e.x * e.g))
    es
    (fun e => (indexes s e.unit e.x).toNat) (fun e => (1 - fracs s e.x) * e.g)

/-- tmp1 = ((x + grid*(size//2)).clamp(max=0)) / grid (backward, line 133). -/
def tmp1 (s : SplineState) (x : ℚ) : ℚ :=
  min (x + s.grid * (halfS s : ℚ)) 0 / s.grid

/-- tmp2 = ((x - grid*(size//2-1)).clamp(min=0)) / grid (backward, line 137). -/
def tmp2 (s : SplineState) (x : ℚ) : ℚ :=
  max (x - s.grid * ((halfS s : ℚ) - 1)) 0 / s.grid

/-- Coefficient gradient with save_memory=True: the two base
scatter_add_ calls (on the recomputed fracs/indexes) followed by the
four extrapolation scatter_add_ calls of lines 131-139. -/
def grad_coefficients_save (s : SplineState) (es : List ActElem) : ℕ → ℚ :=
  scatter_add
    (scatter_add
      (scatter_add
        (scatter_add
          (scatter_add
            (scatter_add (fun _ => 0) es
              (fun e => (bwd_indexes s e.unit e.x + 1).toNat)
              (fun e => bwd_fracs s e.x * e.g))
            es
            (fun e => (bwd_indexes s e.unit e.x).toNat)
            (fun e => (1 - bwd_fracs s e.x) * e.g))
          es
          (fun e => (bwd_indexes s e.unit e.x).toNat)
          (fun e => -(tmp1 s e.x) * e.g))
        es
        (fun e => (bwd_indexes s e.unit e.x + 1).toNat)
        (fun e => tmp1 s e.x * e.g))
      es
      (fun e => (bwd_indexes s e.unit e.x).toNat)
      (fun e => -(tmp2 s e.x) * e.g))
    es
    (fun e => (bwd_indexes s e.unit e.x + 1).toNat)
    (fun e => tmp2 s e.x * e.g)

/-- The contribution of one input element to the automatic gradient of
the extrapolation term added outside the autograd function
(save_memory=False): output = output + linearExtrapolations tracks
coefficients through leftmost_slope and rightmost_slope, so element e
contributes tmp1*g to coefficient i*size+1, -tmp1*g to i*size,
tmp2*g to i*size+size-1 and -tmp2*g to i*size+size-2. -/
def extrap_autograd_contrib (s : SplineState) (e : ActElem) (k : ℕ) : ℚ :=
  (if k = e.unit * s.size + 1 then tmp1 s e.x * e.g else 0)
    + (if k = e.unit * s.size then -(tmp1 s e.x) * e.g else 0)
    + (if k = e.unit * s.size + (s.size - 1) then tmp2 s e.x * e.g else 0)
    + (if k = e.unit * s.size + (s.size - 2) then -(tmp2 s e.x) * e.g else 0)

/-- Autograd gradient of the outer extrapolation term, summed over the
input batch. -/
def grad_extrapolation_autograd (s : SplineState) (es : List ActElem) (k : ℕ) : ℚ :=
  (es.map (fun e => extrap_autograd_contrib s e k)).sum

/-- Total coefficient gradient seen by the optimizer in
save_memory=False mode: manual backward scatter plus the autograd
gradient of the extrapolation added in DeepBSplineBase.forward. -/
def grad_coefficients_noSave_total (s : SplineState) (es : List ActElem) (k : ℕ) : ℚ :=
  grad_coefficients_noSave s es k + grad_extrapolation_autograd s es k

/-! Slope/Coefficient Converter (relu_slopes and
iterative_relu_slopes_to_coefficients). -/

/-- relu_slopes: valid convolution of one coefficient row with the
D2 filter [1,-2,1]/grid (F.conv1d cross-correlation), producing
size - 2 second finite differences. -/
def relu_slopes_list (c : List ℚ) (grid : ℚ) : List ℚ :=
  (List.range (c.length - 2)).map
    (fun j => (c.getD j 0 - 2 * c.getD (j + 1) 0 + c.getD (j + 2) 0) / grid)

/-- One row of relu_slopes of a Spline State. -/
def rowCoeffs (s : SplineState) (i : ℕ) : List ℚ :=
  (List.range s.size).map (fun j => coeff s i j)

/-- relu_slopes of activation unit i of a Spline State. -/
def relu_slopes_row (s : SplineState) (i : ℕ) : List ℚ :=
  relu_slopes_list (rowCoeffs s i) s.grid

/-- The loop of iterative_relu_slopes_to_coefficients on one row:
entries 0 and 1 are the unchanged seeds; for i >= 2,
coefficients[i] = (coefficients[i-1] - coefficients[i-2])
+ relu_slopes[i-2]*grid + coefficients[i-1] (source line 330-331),
reading the values written by earlier iterations. -/
def iterCoeff (c0 c1 : ℚ) (a : List ℚ) (grid : ℚ) : ℕ → ℚ
  | 0 => c0
  | 1 => c1
  | n + 2 =>
      (iterCoeff c0 c1 a grid (n + 1) - iterCoeff c0 c1 a grid n)
        + a.getD n 0 * grid + iterCoeff c0 c1 a grid (n + 1)

/-- Round trip on one row: relu_slopes of c, then the iterative
reconstruction seeded with c's first two entries. -/
def reconstructed (c : List ℚ) (grid : ℚ) : List ℚ :=
  (List.range c.length).map
    (iterCoeff (c.getD 0 0) (c.getD 1 0) (relu_slopes_list c grid) grid)

/-- Value at flat position k of the tensor built by
iterative_relu_slopes_to_coefficients from per-row slopes
(row k / size, column k % size of the reconstructed view). -/
def iterRowValue (s : SplineState) (slopes : List (List ℚ)) (k : ℕ) : ℚ :=
  iterCoeff (coeff s (k / s.size) 0) (coeff s (k / s.size) 1)
    (slopes.getD (k / s.size) []) s.grid (k % s.size)

/-- DeepBSplineBase.iterative_relu_slopes_to_coefficients: the method
takes the coefficients view of coefficients_vect_, zeroes columns
2.. and fills them by the recurrence IN PLACE (the view aliases the
stored vector), then returns that view. The embedding returns the
pair (returned tensor flattened, state after the call). -/
def iterative_relu_slopes_to_coefficients (s : SplineState)
    (slopes : List (List ℚ)) : List ℚ × SplineState :=
  let newVect :=
    (List.range (s.num_activations * s.size)).map (iterRowValue s slopes)
  (newVect, { s with coefficients_vect := newVect })

/-- Modelled from the spec: DeepSplineBase.apply_threshold (the
super() call in src/models/deepBspline_base.py, whose body is not
under src/) computes relu_slopes and zeroes every entry with absolute
value below the threshold. -/
def sparsified (threshold : ℚ) (a : List ℚ) : List ℚ :=
  a.map (fun v => if |v| < threshold then 0 else v)

/-- DeepBSplineBase.apply_threshold: sparsify the relu slopes and
rebuild coefficients_vect_ through the iterative inverse transform,
assigning the flattened result back to the stored vector. -/
def apply_threshold (s : SplineState) (threshold : ℚ) : SplineState :=
  (iterative_relu_slopes_to_coefficients s
    ((List.range s.num_activations).map
      (fun i => sparsified threshold (relu_slopes_row s i)))).2

/-! Regularization & Bound Engine (BaseModel.TV_BV and
BaseModel.lipschitz_bound). -/

/-- Modelled from the spec: DeepSplineBase.totalVariation (not under
src/) is the TV(2) of one activation unit, the L1 norm of its
relu_slopes. -/
def totalVariationRow (s : SplineState) (i : ℕ) : ℚ :=
  ((relu_slopes_row s i).map (fun a => |a|)).sum

/-- totalVariation summed over the units of a module (module_tv.sum()). -/
def totalVariationSum (s : SplineState) : ℚ :=
  ((List.range s.num_activations).map (totalVariationRow s)).sum

/-- Modelled from the spec: DeepSplineBase.fZerofOneAbs (not under
src/) gives, per unit, |s(0)| + |s(1)| — the boundary terms named in
the lipschitz_bound docstring of src/models/basemodel.py
(||s_l||_BV(2) = sum over n of TV(2)(s_n) + |s_n(0)| + |s_n(1)|)
and in the method name itself; the spline is evaluated by the
module's own forward pass. -/
def fZerofOneAbsRow (s : SplineState) (i : ℕ) : ℚ :=
  |forward_noSave s i 0| + |forward_noSave s i 1|

/-- fZerofOneAbs summed over the units of a module. -/
def fZerofOneAbsSum (s : SplineState) : ℚ :=
  ((List.range s.num_activations).map (fZerofOneAbsRow s)).sum

/-- The per-unit value accumulated by BaseModel.TV_BV:
totalVariation, plus fZerofOneAbs when params['lipschitz'] is True. -/
def module_tv_bv (s : SplineState) (lipschitz : Bool) (i : ℕ) : ℚ :=
  totalVariationRow s i + (if lipschitz then fZerofOneAbsRow s i else 0)

/-- The per-unit BV value as the spec words it: TV(2) plus the
absolute spline values at the normalized boundary points x = -1 and
x = +1 of the support (comparison definition written from the spec
text, not from the source). -/
def specBVRow (s : SplineState) (i : ℕ) : ℚ :=
  totalVariationRow s i + |forward_noSave s i (-1)| + |forward_noSave s i 1|

/-- A module of the surrounding network as seen by
BaseModel.lipschitz_bound: a deepspline activation module, a
Linear/Conv2d weight layer (flattened weight entries), or anything
else (skipped by the loop). -/
inductive NetModule where
  | spline (s : SplineState)
  | weightLayer (w : List ℚ)
  | other
  deriving DecidableEq

/-- module.weight.data.abs().max() over the flattened weight entries
(0 for an empty weight tensor, which torch would reject). -/
def maxAbsWeight (w : List ℚ) : ℚ :=
  w.foldr (fun a r => max |a| r) 0

/-- One iteration of the module loop of BaseModel.lipschitz_bound:
a spline module multiplies the bv accumulator by
module_tv.sum() + module_fzero_fone.sum(); a Linear/Conv2d module
multiplies the weight accumulator by its max absolute entry. -/
def lipschitz_step (acc : ℚ × ℚ) (m : NetModule) : ℚ × ℚ :=
  match m with
  | .spline s => (acc.1 * (totalVariationSum s + fZerofOneAbsSum s), acc.2)
  | .weightLayer w => (acc.1, acc.2 * maxAbsWeight w)
  | .other => acc

/-- BaseModel.lipschitz_bound: fold the module list starting from
bv_product = 1, max_weights_product = 1 and return
max_weights_product * bv_product. -/
def lipschitz_bound (net : List NetModule) : ℚ :=
  let r := net.foldl lipschitz_step (1, 1)
  r.2 * r.1

/-- The factor a module contributes to max_weights_product. -/
def weightFactor : NetModule → ℚ
  | .weightLayer w => maxAbsWeight w
  | _ => 1

/-- The factor a module contributes to bv_product. -/
def splineFactor : NetModule → ℚ
  | .spline s => totalVariationSum s + fZerofOneAbsSum s
  | _ => 1

/-! Evaluation entry point (DeepBSplineBase.forward). -/

/-- The reshaped input batch: its unit dimension x.size(1) and its
scalar elements. -/
structure InputBatch where
  unitDim : ℕ
  elems : List ActElem
  deriving DecidableEq

/-- DeepBSplineBase.forward entry: the assert
x.size(1) == num_activations fails fatally before any spline
computation; otherwise every element is evaluated in the configured
memory mode. -/
def forward_entry (s : SplineState) (save_memory : Bool)
    (b : InputBatch) : Except String (List ℚ) :=
  if b.unitDim = s.num_activations then
    Except.ok (b.elems.map (fun e =>
      if save_memory then forward_save s e.unit e.x
      else forward_noSave s e.unit e.x))
  else
    Except.error ("input.size(1) != num_activations.")

/-! Concrete instances used by the examples of the spec. -/

/-- The spec's running example: size = 5, grid = 1,
coefficients = [0, 1, 2, 3, 4], one activation unit. -/
def exampleState : SplineState := ⟨1, 5, 1, [0, 1, 2, 3, 4]⟩

/-- A single in-range input element x = 1/2 with unit upstream
gradient, in unit 0. -/
def exampleElems : List ActElem := [⟨0, 1/2, 1⟩]

/-- A small size-3 state with a nonlinear third coefficient. -/
def smallState : SplineState := ⟨1, 3, 1, [0, 1, 5]⟩

/-! Helper lemmas. -/

lemma getD_map_range (n : ℕ) (f : ℕ → ℚ) (k : ℕ) (d : ℚ) :
    ((List.range n).map f).getD k d = if k < n then f k else d := by
  by_cases h : k < n
  · rw [List.getD_eq_getElem _ _ (by simpa using h)]
    simp [h]
  · rw [List.getD_eq_default _ _ (by simpa using Nat.le_of_not_lt h)]
    simp [h]

lemma sum_map_add {α : Type} (l : List α) (f g : α → ℚ) :
    (l.map (fun a => f a + g a)).sum = (l.map f).sum + (l.map g).sum := by
  induction l with
  | nil => simp
  | cons a t ih => simp [ih]; ring

lemma scatter_add_apply (f : ℕ → ℚ) (es : List ActElem)
    (key : ActElem → ℕ) (val : ActElem → ℚ) (j : ℕ) :
    scatter_add f es key val j
      = f j + (es.map (fun e => if j = key e then val e else 0)).sum := by
  induction es generalizing f with
  | nil => simp [scatter_add]
  | cons e t ih =>
      show scatter_add (addAt f (key e) (val e)) t key val j = _
      rw [ih]
      by_cases h : j = key e <;> simp [addAt, h] <;> ring

lemma one_le_halfS (s : SplineState) (h3 : 3 ≤ s.size) : 1 ≤ halfS s := by
  show 1 ≤ s.size / 2
  omega

lemma leftB_le_rightB (s : SplineState) (h0 : 0 < s.grid)
    (h3 : 3 ≤ s.size) : leftB s ≤ rightB s := by
  have hm : 1 ≤ (halfS s : ℚ) := by exact_mod_cast one_le_halfS s h3
  have : (0 : ℚ) ≤ s.grid * (2 * (halfS s : ℚ) - 1) := by
    apply mul_nonneg (le_of_lt h0)
    linarith
  simp only [leftB, rightB]
  nlinarith

lemma x_clamped_of_lt (s : SplineState) (h0 : 0 < s.grid)
    (h3 : 3 ≤ s.size) (x : ℚ) (hx : x < leftB s) :
    x_clamped s x = leftB s := by
  rw [x_clamped, max_eq_right (le_of_lt hx),
    min_eq_left (leftB_le_rightB s h0 h3)]

lemma x_clamped_of_gt (s : SplineState) (x : ℚ) (hx : rightB s < x) :
    x_clamped s x = rightB s := by
  rw [x_clamped]
  exact min_eq_right (le_trans (le_of_lt hx) (le_max_left x (leftB s)))

lemma floored_at_leftB (s : SplineState) (h0 : 0 < s.grid) (x : ℚ)
    (hc : x_clamped s x = leftB s) :
    floored_x s x = -(halfS s : ℤ) := by
  rw [floored_x, hc, leftB]
  have hg : s.grid ≠ 0 := ne_of_gt h0
  have : -(s.grid * (halfS s : ℚ)) / s.grid = ((-(halfS s : ℤ) : ℤ) : ℚ) := by
    rw [div_eq_iff hg]
    push_cast
    ring
  rw [this, Int.floor_intCast]

lemma floored_at_rightB (s : SplineState) (h0 : 0 < s.grid) (x : ℚ)
    (hc : x_clamped s x = rightB s) :
    floored_x s x = (halfS s : ℤ) - 1 := by
  rw [floored_x, hc, rightB]
  have hg : s.grid ≠ 0 := ne_of_gt h0
  have : s.grid * ((halfS s : ℚ) - 1) / s.grid = (((halfS s : ℤ) - 1 : ℤ) : ℚ) := by
    rw [div_eq_iff hg]
    push_cast
    ring
  rw [this, Int.floor_intCast]

lemma fracs_of_floor_exact (s : SplineState) (x : ℚ)
    (h : x_clamped s x / s.grid = ((floored_x s x : ℤ) : ℚ)) :
    fracs s x = 0 := by
  rw [fracs, h]
  ring

lemma tmp1_of_ge (s : SplineState) (x : ℚ)
    (hx : leftB s ≤ x) : tmp1 s x = 0 := by
  have hge : 0 ≤ x + s.grid * (halfS s : ℚ) := by
    have := hx
    simp only [leftB] at this
    linarith
  rw [tmp1, min_eq_right hge]
  simp

lemma tmp2_of_le (s : SplineState) (x : ℚ)
    (hx : x ≤ rightB s) : tmp2 s x = 0 := by
  have hle : x - s.grid * ((halfS s : ℚ) - 1) ≤ 0 := by
    have := hx
    simp only [rightB] at this
    linarith
  rw [tmp2, max_eq_right hle]
  simp

lemma bwd_x_clamped_eq : bwd_x_clamped = x_clamped := rfl

lemma bwd_floored_eq : bwd_floored_x = floored_x := rfl

lemma bwd_fracs_eq : bwd_fracs = fracs := rfl

lemma bwd_indexes_eq : bwd_indexes = indexes := rfl

lemma fracs_at_leftB (s : SplineState) (h0 : 0 < s.grid) (x : ℚ)
    (hc : x_clamped s x = leftB s) : fracs s x = 0 := by
  have hg : s.grid ≠ 0 := ne_of_gt h0
  rw [fracs, floored_at_leftB s h0 x hc, hc, leftB]
  have h1 : -(s.grid * (halfS s : ℚ)) / s.grid = -(halfS s : ℚ) := by
    rw [neg_div, mul_div_cancel_left₀ _ hg]
  rw [h1]
  push_cast
  ring

lemma fracs_at_rightB (s : SplineState) (h0 : 0 < s.grid) (x : ℚ)
    (hc : x_clamped s x = rightB s) : fracs s x = 0 := by
  have hg : s.grid ≠ 0 := ne_of_gt h0
  rw [fracs, floored_at_rightB s h0 x hc, hc, rightB]
  rw [mul_div_cancel_left₀ _ hg]
  push_cast
  ring

lemma indexes_at_leftB (s : SplineState) (h0 : 0 < s.grid) (u : ℕ) (x : ℚ)
    (hc : x_clamped s x = leftB s) :
    indexes s u x = ((u * s.size : ℕ) : ℤ) := by
  rw [indexes, zero_knot_indexes, floored_at_leftB s h0 x hc]
  push_cast
  ring

lemma size_odd_split (s : SplineState) (hodd : Odd s.size) :
    s.size = 2 * halfS s + 1 := by
  obtain ⟨t, ht⟩ := hodd
  show s.size = 2 * (s.size / 2) + 1
  omega

lemma indexes_at_rightB (s : SplineState) (h0 : 0 < s.grid)
    (h3 : 3 ≤ s.size) (hodd : Odd s.size) (u : ℕ) (x : ℚ)
    (hc : x_clamped s x = rightB s) :
    indexes s u x = ((u * s.size + (s.size - 2) : ℕ) : ℤ) := by
  have hsz := size_odd_split s hodd
  have h2 : 2 ≤ s.size := by omega
  have hszq : (s.size : ℤ) = 2 * (halfS s : ℤ) + 1 := by exact_mod_cast hsz
  rw [indexes, zero_knot_indexes, floored_at_rightB s h0 x hc]
  push_cast [Nat.cast_sub h2]
  linarith

lemma toNat_indexes_leftB (s : SplineState) (h0 : 0 < s.grid) (u : ℕ)
    (x : ℚ) (hc : x_clamped s x = leftB s) :
    (indexes s u x).toNat = u * s.size := by
  rw [indexes_at_leftB s h0 u x hc]
  exact Int.toNat_natCast _

lemma toNat_indexes_leftB_succ (s : SplineState) (h0 : 0 < s.grid) (u : ℕ)
    (x : ℚ) (hc : x_clamped s x = leftB s) :
    (indexes s u x + 1).toNat = u * s.size + 1 := by
  rw [indexes_at_leftB s h0 u x hc]
  have h1 : ((u * s.size : ℕ) : ℤ) + 1 = ((u * s.size + 1 : ℕ) : ℤ) := by
    push_cast
    ring
  rw [h1]
  exact Int.toNat_natCast _

lemma toNat_indexes_rightB (s : SplineState) (h0 : 0 < s.grid)
    (h3 : 3 ≤ s.size) (hodd : Odd s.size) (u : ℕ) (x : ℚ)
    (hc : x_clamped s x = rightB s) :
    (indexes s u x).toNat = u * s.size + (s.size - 2) := by
  rw [indexes_at_rightB s h0 h3 hodd u x hc]
  exact Int.toNat_natCast _

lemma toNat_indexes_rightB_succ (s : SplineState) (h0 : 0 < s.grid)
    (h3 : 3 ≤ s.size) (hodd : Odd s.size) (u : ℕ) (x : ℚ)
    (hc : x_clamped s x = rightB s) :
    (indexes s u x + 1).toNat = u * s.size + (s.size - 1) := by
  rw [indexes_at_rightB s h0 h3 hodd u x hc]
  have h1 : ((u * s.size + (s.size - 2) : ℕ) : ℤ) + 1
      = ((u * s.size + (s.size - 1) : ℕ) : ℤ) := by
    have h2 : 2 ≤ s.size := by omega
    push_cast [Nat.cast_sub h2, Nat.cast_sub (by omega : 1 ≤ s.size)]
    ring
  rw [h1]
  exact Int.toNat_natCast _

lemma contrib_eq (s : SplineState) (h0 : 0 < s.grid) (h3 : 3 ≤ s.size)
    (hodd : Odd s.size) (e : ActElem) (k : ℕ) :
    ((if k = (indexes s e.unit e.x + 1).toNat then fracs s e.x * e.g else 0)
        + (if k = (indexes s e.unit e.x).toNat then (1 - fracs s e.x) * e.g else 0))
      + extrap_autograd_contrib s e k
    = (if k = (indexes s e.unit e.x + 1).toNat then fracs s e.x * e.g else 0)
      + (if k = (indexes s e.unit e.x).toNat then (1 - fracs s e.x) * e.g else 0)
      + (if k = (indexes s e.unit e.x).toNat then -(tmp1 s e.x) * e.g else 0)
      + (if k = (indexes s e.unit e.x + 1).toNat then tmp1 s e.x * e.g else 0)
      + (if k = (indexes s e.unit e.x).toNat then -(tmp2 s e.x) * e.g else 0)
      + (if k = (indexes s e.unit e.x + 1).toNat then tmp2 s e.x * e.g else 0) := by
  rcases lt_or_le e.x (leftB s) with hA | hA
  · have hc := x_clamped_of_lt s h0 h3 e.x hA
    have hf0 := fracs_at_leftB s h0 e.x hc
    have hidx := toNat_indexes_leftB s h0 e.unit e.x hc
    have hidx1 := toNat_indexes_leftB_succ s h0 e.unit e.x hc
    have ht2 := tmp2_of_le s e.x
      (le_trans (le_of_lt hA) (leftB_le_rightB s h0 h3))
    simp only [extrap_autograd_contrib, hf0, ht2, hidx, hidx1]
    split_ifs <;> first | ring | tauto
  · rcases le_or_lt e.x (rightB s) with hB | hB
    · have ht1 := tmp1_of_ge s e.x hA
      have ht2 := tmp2_of_le s e.x hB
      simp only [extrap_autograd_contrib, ht1, ht2]
      split_ifs <;> first | ring | tauto
    · have hc := x_clamped_of_gt s e.x hB
      have hf0 := fracs_at_rightB s h0 e.x hc
      have hidx := toNat_indexes_rightB s h0 h3 hodd e.unit e.x hc
      have hidx1 := toNat_indexes_rightB_succ s h0 h3 hodd e.unit e.x hc
      have ht1 := tmp1_of_ge s e.x
        (le_trans (leftB_le_rightB s h0 h3) (le_of_lt hB))
      simp only [extrap_autograd_contrib, hf0, ht1, hidx, hidx1]
      split_ifs <;> first | ring | tauto

lemma grad_coefficients_eq (s : SplineState) (h0 : 0 < s.grid)
    (h3 : 3 ≤ s.size) (hodd : Odd s.size) (es : List ActElem) (k : ℕ) :
    grad_coefficients_noSave_total s es k = grad_coefficients_save s es k := by
  simp only [grad_coefficients_noSave_total, grad_coefficients_noSave,
    grad_coefficients_save, grad_extrapolation_autograd, bwd_indexes_eq,
    bwd_fracs_eq, scatter_add_apply, zero_add]
  simp only [← sum_map_add]
  refine congrArg List.sum (List.map_congr_left ?_)
  intro e _
  exact contrib_eq s h0 h3 hodd e k

/-! Claim theorems. -/

/-- C1: for every input batch, grid > 0, odd size >= 3 and coefficient
vector, the evaluator run with save_memory=True and save_memory=False
produces the same forward output, the same gradient with respect to
the input, and the same gradient with respect to the coefficient
vector: the memory-saving variant (which recomputes frac/idx in
backward and folds the extrapolation into the autograd function
instead of adding it outside) does not change the mathematical
result. -/
theorem C1_memory_mode_equivalence (s : SplineState) (h0 : 0 < s.grid)
    (h3 : 3 ≤ s.size) (hodd : Odd s.size) (i : ℕ) (x g : ℚ)
    (es : List ActElem) :
    forward_noSave s i x = forward_save s i x
      ∧ grad_x_noSave s i x g = grad_x_save s i x g
      ∧ ∀ k, grad_coefficients_noSave_total s es k
          = grad_coefficients_save s es k :=
  ⟨rfl, rfl, fun k => grad_coefficients_eq s h0 h3 hodd es k⟩

/-- Witness for C1 at the spec's running example (size 5, grid 1,
coefficients [0,1,2,3,4], input -10, a batch with one element). -/
theorem C1_memory_mode_equivalence_witness :
    (0 : ℚ) < 1 ∧ Odd 5
      ∧ forward_noSave exampleState 0 (-10) = forward_save exampleState 0 (-10)
      ∧ grad_coefficients_noSave_total exampleState exampleElems 2
          = grad_coefficients_save exampleState exampleElems 2 :=
  ⟨by norm_num, by decide,
    (C1_memory_mode_equivalence exampleState (by norm_num [exampleState]) (by norm_num [exampleState])
      (by decide) 0 (-10) 1 exampleElems).1,
    (C1_memory_mode_equivalence exampleState (by norm_num [exampleState]) (by norm_num [exampleState])
      (by decide) 0 (-10) 1 exampleElems).2.2 2⟩

/-- C3: the backward pass accumulates frac*g into coefficient index
idx+1 and (1-frac)*g into index idx, summing (not overwriting) the
contributions of all input elements that hit the same index; at
size 5, grid 1, a single input x = 1/2 with unit upstream gradient
yields a coefficient gradient [0, 0, 1/2, 1/2, 0], nonzero only at
indices 2 and 3. -/
theorem C3_backward_accumulation :
    (∀ (s : SplineState) (es : List ActElem) (k : ℕ),
        grad_coefficients_noSave s es k
          = (es.map (fun e =>
              (if k = (indexes s e.unit e.x + 1).toNat then fracs s e.x * e.g else 0)
                + (if k = (indexes s e.unit e.x).toNat
                    then (1 - fracs s e.x) * e.g else 0))).sum)
      ∧ grad_coefficients_noSave_total exampleState exampleElems 0 = 0
      ∧ grad_coefficients_noSave_total exampleState exampleElems 1 = 0
      ∧ grad_coefficients_noSave_total exampleState exampleElems 2 = 1/2
      ∧ grad_coefficients_noSave_total exampleState exampleElems 3 = 1/2
      ∧ grad_coefficients_noSave_total exampleState exampleElems 4 = 0 := by
  have hxc : x_clamped exampleState (1/2) = 1/2 := by
    norm_num [x_clamped, leftB, rightB, halfS, exampleState, min_def, max_def]
  have hfl : floored_x exampleState (1/2) = 0 := by
    rw [floored_x, hxc]
    norm_num [exampleState]
  have hidx : indexes exampleState 0 (1/2) = 2 := by
    rw [indexes, zero_knot_indexes, hfl]
    norm_num [halfS, exampleState]
  have hfr : fracs exampleState (1/2) = 1/2 := by
    rw [fracs, hfl, hxc]
    norm_num [exampleState]
  have ht1 : tmp1 exampleState (1/2) = 0 := by
    norm_num [tmp1, halfS, exampleState, min_def]
  have ht2 : tmp2 exampleState (1/2) = 0 := by
    norm_num [tmp2, halfS, exampleState, max_def]
  refine ⟨?_, ?_, ?_, ?_, ?_, ?_⟩
  · intro s es k
    simp only [grad_coefficients_noSave, scatter_add_apply, zero_add,
      ← sum_map_add]
  all_goals
    simp only [grad_coefficients_noSave_total, grad_coefficients_noSave,
      grad_extrapolation_autograd, scatter_add_apply, zero_add, exampleElems,
      List.map_cons, List.map_nil, List.sum_cons, List.sum_nil,
      extrap_autograd_contrib, hidx, hfr, ht1, ht2]
  all_goals simp
  all_goals norm_num

/-- C4: at size 5, grid 1, coefficients [0,1,2,3,4], the forward
value at x = -10 is coefficients[0] + leftSlope * (x - (-grid*(size//2)))
(exact linear extrapolation) and the value at x = 0 is
coefficients[size//2] = 2, in both memory modes. -/
theorem C4_boundary_continuity :
    forward_noSave exampleState 0 (-10)
        = coeff exampleState 0 0
          + leftmost_slope exampleState 0 * (-10 - leftB exampleState)
      ∧ forward_save exampleState 0 (-10)
        = coeff exampleState 0 0
          + leftmost_slope exampleState 0 * (-10 - leftB exampleState)
      ∧ forward_noSave exampleState 0 0 = coeff exampleState 0 2
      ∧ forward_save exampleState 0 0 = 2 := by
  have hxcL : x_clamped exampleState (-10) = -2 := by
    norm_num [x_clamped, leftB, rightB, halfS, exampleState, min_def, max_def]
  have hflL : floored_x exampleState (-10) = -2 := by
    rw [floored_x, hxcL]
    norm_num [exampleState]
  have hidxL : indexes exampleState 0 (-10) = 0 := by
    rw [indexes, zero_knot_indexes, hflL]
    norm_num [halfS, exampleState]
  have hfrL : fracs exampleState (-10) = 0 := by
    rw [fracs, hflL, hxcL]
    norm_num [exampleState]
  have hxc0 : x_clamped exampleState 0 = 0 := by
    norm_num [x_clamped, leftB, rightB, halfS, exampleState, min_def, max_def]
  have hfl0 : floored_x exampleState 0 = 0 := by
    rw [floored_x, hxc0]
    norm_num [exampleState]
  have hidx0 : indexes exampleState 0 0 = 2 := by
    rw [indexes, zero_knot_indexes, hfl0]
    norm_num [halfS, exampleState]
  have hfr0 : fracs exampleState 0 = 0 := by
    rw [fracs, hfl0, hxc0]
    norm_num [exampleState]
  refine ⟨?_, ?_, ?_, ?_⟩
  all_goals
    simp only [forward_noSave, forward_save, func_forward_noSave,
      func_forward_save, activation_base, outer_linearExtrapolation,
      linearExtrapolation, leftExtrapolation, rightExtrapolation,
      outer_leftmost_slope, outer_rightmost_slope, leftmost_slope,
      rightmost_slope, hidxL, hfrL, hidx0, hfr0]
  all_goals
    norm_num [cvGet, coeff, exampleState, halfS, leftB, rightB,
      min_def, max_def, List.getD]
  all_goals simp

/-- C6: for every real input x to unit i, clamping before flooring
guarantees i*size <= idx and idx <= i*size + size - 2, so both
coefficient accesses idx and idx+1 stay inside unit i's own
coefficient slice. -/
theorem C6_clamped_index_bounds (s : SplineState) (h0 : 0 < s.grid)
    (h3 : 3 ≤ s.size) (hodd : Odd s.size) (i : ℕ) (x : ℚ) :
    ((i * s.size : ℕ) : ℤ) ≤ indexes s i x
      ∧ indexes s i x ≤ ((i * s.size : ℕ) : ℤ) + s.size - 2
      ∧ indexes s i x + 1 ≤ ((i * s.size : ℕ) : ℤ) + s.size - 1 := by
  have hg : s.grid ≠ 0 := ne_of_gt h0
  have hlr := leftB_le_rightB s h0 h3
  have hcl : leftB s ≤ x_clamped s x :=
    le_min (le_max_right x (leftB s)) hlr
  have hcr : x_clamped s x ≤ rightB s := min_le_right _ _
  have e1 : leftB s / s.grid = ((-(halfS s : ℤ) : ℤ) : ℚ) := by
    rw [leftB, div_eq_iff hg]
    push_cast
    ring
  have e2 : rightB s / s.grid = (((halfS s : ℤ) - 1 : ℤ) : ℚ) := by
    rw [rightB, div_eq_iff hg]
    push_cast
    ring
  have hfl : -(halfS s : ℤ) ≤ floored_x s x := by
    apply Int.le_floor.mpr
    rw [← e1]
    exact (div_le_div_right h0).mpr hcl
  have hfu : floored_x s x ≤ (halfS s : ℤ) - 1 := by
    have := Int.floor_le_floor ((div_le_div_right h0).mpr hcr)
    rwa [e2, Int.floor_intCast] at this
  have hszq : (s.size : ℤ) = 2 * (halfS s : ℤ) + 1 := by
    exact_mod_cast size_odd_split s hodd
  simp only [indexes, zero_knot_indexes]
  push_cast
  refine ⟨by linarith, by linarith, by linarith⟩

lemma iterCoeff_round_trip (c : List ℚ) (grid : ℚ) (h0 : 0 < grid) :
    ∀ i, i < c.length →
      iterCoeff (c.getD 0 0) (c.getD 1 0) (relu_slopes_list c grid) grid i
        = c.getD i 0 := by
  have hg : grid ≠ 0 := ne_of_gt h0
  intro i
  induction i using Nat.strong_induction_on with
  | _ i ih =>
    match i with
    | 0 => exact fun _ => rfl
    | 1 => exact fun _ => rfl
    | n + 2 =>
      intro h
      have h1 := ih (n + 1) (by omega) (by omega)
      have h2 := ih n (by omega) (by omega)
      simp only [iterCoeff]
      rw [h1, h2]
      have hn2 : n < c.length - 2 := by omega
      have ha : (relu_slopes_list c grid).getD n 0
          = (c.getD n 0 - 2 * c.getD (n + 1) 0 + c.getD (n + 2) 0) / grid := by
        rw [relu_slopes_list, getD_map_range]
        simp [hn2]
      rw [ha, div_mul_cancel₀ _ hg]
      ring

/-- C2: for every coefficient row of odd length >= 3 and grid > 0,
taking relu_slopes (valid convolution with [1,-2,1]/grid) and running
the iterative inverse recurrence seeded with the unchanged first two
coefficients reproduces the original coefficients exactly. -/
theorem C2_slope_coefficient_round_trip (c : List ℚ) (grid : ℚ)
    (h0 : 0 < grid) (h3 : 3 ≤ c.length) (hodd : Odd c.length) :
    reconstructed c grid = c := by
  apply List.ext_getElem
  · simp [reconstructed]
  · intro i h1 h2
    simp only [reconstructed, List.getElem_map, List.getElem_range]
    rw [iterCoeff_round_trip c grid h0 i h2, List.getD_eq_getElem _ _ h2]

/-- Witness for C2 at the example coefficients [0,1,2,3,4], grid 1. -/
theorem C2_slope_coefficient_round_trip_witness :
    (0 : ℚ) < 1 ∧ Odd ([(0 : ℚ), 1, 2, 3, 4]).length
      ∧ reconstructed [(0 : ℚ), 1, 2, 3, 4] 1 = [(0 : ℚ), 1, 2, 3, 4] :=
  ⟨by norm_num, by decide,
    C2_slope_coefficient_round_trip [(0 : ℚ), 1, 2, 3, 4] 1 (by norm_num)
      (by decide) (by decide)⟩

lemma index_div (i j n : ℕ) (hn : 0 < n) (hj : j < n) :
    (i * n + j) / n = i := by
  rw [Nat.add_comm, Nat.add_mul_div_right j i hn, Nat.div_eq_of_lt hj]
  omega

lemma index_mod (i j n : ℕ) (hj : j < n) :
    (i * n + j) % n = j := by
  rw [Nat.add_comm, Nat.add_mul_mod_self_right]
  exact Nat.mod_eq_of_lt hj

/-- C5: apply_threshold leaves the first two coefficients (indices 0
and 1) of every spline exactly unchanged; only coefficients at
index >= 2 can differ after the sparsify-and-reconstruct round trip. -/
theorem C5_threshold_preserves_first_two (s : SplineState) (threshold : ℚ)
    (i : ℕ) (hi : i < s.num_activations) (h3 : 3 ≤ s.size) :
    coeff (apply_threshold s threshold) i 0 = coeff s i 0
      ∧ coeff (apply_threshold s threshold) i 1 = coeff s i 1 := by
  have hsz : 0 < s.size := by omega
  have hlt0 : i * s.size + 0 < s.num_activations * s.size := by
    have h := (Nat.mul_lt_mul_right hsz).mpr hi
    omega
  have hlt1 : i * s.size + 1 < s.num_activations * s.size := by
    have h2 : i + 1 ≤ s.num_activations := hi
    have h := Nat.mul_le_mul_right s.size h2
    have h4 : (i + 1) * s.size = i * s.size + s.size := by ring
    omega
  constructor
  · simp only [apply_threshold, iterative_relu_slopes_to_coefficients, coeff]
    rw [getD_map_range, if_pos hlt0]
    simp only [iterRowValue]
    rw [index_div i 0 s.size hsz (by omega), index_mod i 0 s.size (by omega)]
    rfl
  · simp only [apply_threshold, iterative_relu_slopes_to_coefficients, coeff]
    rw [getD_map_range, if_pos hlt1]
    simp only [iterRowValue]
    rw [index_div i 1 s.size hsz (by omega), index_mod i 1 s.size (by omega)]
    rfl

/-- Witness for C5 at the example state, threshold 1. -/
theorem C5_threshold_preserves_first_two_witness :
    0 < exampleState.num_activations ∧ 3 ≤ exampleState.size
      ∧ coeff (apply_threshold exampleState 1) 0 0 = coeff exampleState 0 0 :=
  ⟨by norm_num [exampleState], by norm_num [exampleState],
    (C5_threshold_preserves_first_two exampleState 1 0
      (by norm_num [exampleState]) (by norm_num [exampleState])).1⟩

/-- Witness for C6 at the example state with a far out-of-range input. -/
theorem C6_clamped_index_bounds_witness :
    (0 : ℚ) < 1 ∧ Odd 5
      ∧ ((0 * 5 : ℕ) : ℤ) ≤ indexes exampleState 0 1000
      ∧ indexes exampleState 0 1000 ≤ ((0 * 5 : ℕ) : ℤ) + 5 - 2 :=
  ⟨by norm_num, by decide,
    (C6_clamped_index_bounds exampleState (by norm_num [exampleState]) (by norm_num [exampleState])
      (by decide) 0 1000).1,
    (C6_clamped_index_bounds exampleState (by norm_num [exampleState]) (by norm_num [exampleState])
      (by decide) 0 1000).2.1⟩

lemma maxAbsWeight_cons (a : ℚ) (t : List ℚ) :
    maxAbsWeight (a :: t) = max |a| (maxAbsWeight t) := rfl

lemma maxAbsWeight_nonneg (w : List ℚ) : 0 ≤ maxAbsWeight w := by
  induction w with
  | nil => simp [maxAbsWeight]
  | cons a t ih =>
      rw [maxAbsWeight_cons]
      exact le_max_of_le_right ih

lemma maxAbsWeight_set_le (w : List ℚ) (k : ℕ) (v : ℚ) (hk : k < w.length)
    (h : |w.getD k 0| ≤ |v|) :
    maxAbsWeight w ≤ maxAbsWeight (w.set k v) := by
  induction w generalizing k with
  | nil => simp at hk
  | cons a t ih =>
      cases k with
      | zero =>
          rw [List.set_cons_zero, maxAbsWeight_cons, maxAbsWeight_cons]
          have ha : |a| ≤ |v| := by simpa using h
          exact max_le_max ha (le_refl _)
      | succ n =>
          rw [List.set_cons_succ, maxAbsWeight_cons, maxAbsWeight_cons]
          have hn : n < t.length := by simpa using hk
          have ht : |t.getD n 0| ≤ |v| := by simpa using h
          exact max_le_max (le_refl _) (ih n hn ht)

lemma list_sum_nonneg (l : List ℚ) (h : ∀ x ∈ l, 0 ≤ x) : 0 ≤ l.sum := by
  induction l with
  | nil => simp
  | cons a t ih =>
      rw [List.sum_cons]
      exact add_nonneg (h a (by simp)) (ih fun x hx => h x (by simp [hx]))

lemma list_prod_nonneg (l : List ℚ) (h : ∀ x ∈ l, 0 ≤ x) : 0 ≤ l.prod := by
  induction l with
  | nil => simp
  | cons a t ih =>
      rw [List.prod_cons]
      exact mul_nonneg (h a (by simp)) (ih fun x hx => h x (by simp [hx]))

lemma totalVariationRow_nonneg (s : SplineState) (i : ℕ) :
    0 ≤ totalVariationRow s i := by
  apply list_sum_nonneg
  intro x hx
  obtain ⟨a, _, rfl⟩ := List.mem_map.mp hx
  exact abs_nonneg a

lemma fZerofOneAbsRow_nonneg (s : SplineState) (i : ℕ) :
    0 ≤ fZerofOneAbsRow s i :=
  add_nonneg (abs_nonneg _) (abs_nonneg _)

lemma splineFactor_nonneg (m : NetModule) : 0 ≤ splineFactor m := by
  cases m with
  | spline s =>
      refine add_nonneg (list_sum_nonneg _ ?_) (list_sum_nonneg _ ?_)
      · intro x hx
        obtain ⟨a, _, rfl⟩ := List.mem_map.mp hx
        exact totalVariationRow_nonneg s a
      · intro x hx
        obtain ⟨a, _, rfl⟩ := List.mem_map.mp hx
        exact fZerofOneAbsRow_nonneg s a
  | weightLayer w => exact zero_le_one
  | other => exact zero_le_one

lemma weightFactor_nonneg (m : NetModule) : 0 ≤ weightFactor m := by
  cases m with
  | spline s => exact zero_le_one
  | weightLayer w => exact maxAbsWeight_nonneg w
  | other => exact zero_le_one

lemma lipschitz_foldl (net : List NetModule) (a b : ℚ) :
    net.foldl lipschitz_step (a, b)
      = (a * (net.map splineFactor).prod, b * (net.map weightFactor).prod) := by
  induction net generalizing a b with
  | nil => simp
  | cons m t ih =>
      cases m with
      | spline s =>
          simp only [List.foldl_cons, lipschitz_step, List.map_cons,
            List.prod_cons, splineFactor, weightFactor, ih, Prod.mk.injEq]
          constructor <;> ring
      | weightLayer w =>
          simp only [List.foldl_cons, lipschitz_step, List.map_cons,
            List.prod_cons, splineFactor, weightFactor, ih, Prod.mk.injEq]
          constructor <;> ring
      | other =>
          simp only [List.foldl_cons, lipschitz_step, List.map_cons,
            List.prod_cons, splineFactor, weightFactor, ih, Prod.mk.injEq]
          constructor <;> ring

lemma lipschitz_bound_factored (net : List NetModule) :
    lipschitz_bound net
      = (net.map weightFactor).prod * (net.map splineFactor).prod := by
  simp only [lipschitz_bound, lipschitz_foldl]
  ring

lemma lipschitz_bound_nonneg (net : List NetModule) :
    0 ≤ lipschitz_bound net := by
  rw [lipschitz_bound_factored]
  refine mul_nonneg (list_prod_nonneg _ ?_) (list_prod_nonneg _ ?_)
  · intro x hx
    obtain ⟨m, _, rfl⟩ := List.mem_map.mp hx
    exact weightFactor_nonneg m
  · intro x hx
    obtain ⟨m, _, rfl⟩ := List.mem_map.mp hx
    exact splineFactor_nonneg m

lemma lipschitz_bound_cons (m : NetModule) (net : List NetModule) :
    lipschitz_bound (m :: net)
      = weightFactor m * splineFactor m * lipschitz_bound net := by
  simp only [lipschitz_bound_factored, List.map_cons, List.prod_cons]
  ring

lemma lipschitz_bound_set_mono (net : List NetModule) :
    ∀ (j : ℕ) (ws : List ℚ) (k : ℕ) (v : ℚ),
      net[j]? = some (NetModule.weightLayer ws) → k < ws.length →
      |ws.getD k 0| ≤ |v| →
      lipschitz_bound net
        ≤ lipschitz_bound (net.set j (NetModule.weightLayer (ws.set k v))) := by
  induction net with
  | nil =>
      intro j ws k v hj
      simp at hj
  | cons m t ih =>
      intro j ws k v hj hk hv
      cases j with
      | zero =>
          simp only [List.getElem?_cons_zero, Option.some.injEq] at hj
          subst hj
          rw [List.set_cons_zero, lipschitz_bound_cons, lipschitz_bound_cons]
          simp only [weightFactor, splineFactor]
          have h1 := maxAbsWeight_set_le ws k v hk hv
          have h2 := lipschitz_bound_nonneg t
          have h3 := maxAbsWeight_nonneg ws
          nlinarith
      | succ n =>
          simp only [List.getElem?_cons_succ] at hj
          rw [List.set_cons_succ, lipschitz_bound_cons, lipschitz_bound_cons]
          have hmono := ih n ws k v hj hk hv
          have hws := mul_nonneg (weightFactor_nonneg m) (splineFactor_nonneg m)
          exact mul_le_mul_of_nonneg_left hmono hws

/-- C7: lipschitz_bound is the product over Linear/Conv2d layers of the
maximum absolute weight entry times the product over spline modules of
(sum of per-unit TV(2) + sum of per-unit boundary terms); consequently
increasing the magnitude of any single weight entry (activations
fixed) never decreases it. -/
theorem C7_lipschitz_bound_product_monotone :
    (∀ net : List NetModule,
        lipschitz_bound net
          = (net.map weightFactor).prod * (net.map splineFactor).prod)
      ∧ ∀ (net : List NetModule) (j : ℕ) (ws : List ℚ) (k : ℕ) (v : ℚ),
          net[j]? = some (NetModule.weightLayer ws) → k < ws.length →
          |ws.getD k 0| ≤ |v| →
          lipschitz_bound net
            ≤ lipschitz_bound (net.set j (NetModule.weightLayer (ws.set k v))) :=
  ⟨lipschitz_bound_factored, fun net => lipschitz_bound_set_mono net⟩

/-- A two-module network for the C7 witness: one weight layer and one
spline module. -/
def exampleNet : List NetModule :=
  [NetModule.weightLayer [2, -3], NetModule.spline exampleState]

/-- Witness for C7: growing the magnitude of weight entry 1 of the
weight layer from -3 to 4 does not decrease the bound. -/
theorem C7_lipschitz_bound_product_monotone_witness :
    (1 < ([(2 : ℚ), -3]).length ∧ |([(2 : ℚ), -3]).getD 1 0| ≤ |(4 : ℚ)|)
      ∧ lipschitz_bound exampleNet
        ≤ lipschitz_bound (exampleNet.set 0
            (NetModule.weightLayer (([(2 : ℚ), -3]).set 1 4))) :=
  ⟨⟨by norm_num, by norm_num [List.getD]⟩,
    C7_lipschitz_bound_product_monotone.2 exampleNet 0 [2, -3] 1 4 rfl
      (by norm_num) (by norm_num [List.getD])⟩

lemma exampleForward_neg1 : forward_noSave exampleState 0 (-1) = 1 := by
  have hxc : x_clamped exampleState (-1) = -1 := by
    norm_num [x_clamped, leftB, rightB, halfS, exampleState, min_def, max_def]
  have hfl : floored_x exampleState (-1) = -1 := by
    rw [floored_x, hxc]
    norm_num [exampleState]
  have hidx : indexes exampleState 0 (-1) = 1 := by
    rw [indexes, zero_knot_indexes, hfl]
    norm_num [halfS, exampleState]
  have hfr : fracs exampleState (-1) = 0 := by
    rw [fracs, hfl, hxc]
    norm_num [exampleState]
  simp only [forward_noSave, func_forward_noSave, activation_base,
    outer_linearExtrapolation, outer_leftmost_slope, outer_rightmost_slope,
    hidx, hfr]
  norm_num [cvGet, coeff, exampleState, halfS, leftB, rightB, min_def,
    max_def, List.getD]

lemma exampleForward_zero : forward_noSave exampleState 0 0 = 2 := by
  have hxc : x_clamped exampleState 0 = 0 := by
    norm_num [x_clamped, leftB, rightB, halfS, exampleState, min_def, max_def]
  have hfl : floored_x exampleState 0 = 0 := by
    rw [floored_x, hxc]
    norm_num [exampleState]
  have hidx : indexes exampleState 0 0 = 2 := by
    rw [indexes, zero_knot_indexes, hfl]
    norm_num [halfS, exampleState]
  have hfr : fracs exampleState 0 = 0 := by
    rw [fracs, hfl, hxc]
    norm_num [exampleState]
  simp only [forward_noSave, func_forward_noSave, activation_base,
    outer_linearExtrapolation, outer_leftmost_slope, outer_rightmost_slope,
    hidx, hfr]
  norm_num [cvGet, coeff, exampleState, halfS, leftB, rightB, min_def,
    max_def, List.getD]
  simp

lemma exampleForward_one : forward_noSave exampleState 0 1 = 3 := by
  have hxc : x_clamped exampleState 1 = 1 := by
    norm_num [x_clamped, leftB, rightB, halfS, exampleState, min_def, max_def]
  have hfl : floored_x exampleState 1 = 1 := by
    rw [floored_x, hxc]
    norm_num [exampleState]
  have hidx : indexes exampleState 0 1 = 3 := by
    rw [indexes, zero_knot_indexes, hfl]
    norm_num [halfS, exampleState]
  have hfr : fracs exampleState 1 = 0 := by
    rw [fracs, hfl, hxc]
    norm_num [exampleState]
  simp only [forward_noSave, func_forward_noSave, activation_base,
    outer_linearExtrapolation, outer_leftmost_slope, outer_rightmost_slope,
    hidx, hfr]
  norm_num [cvGet, coeff, exampleState, halfS, leftB, rightB, min_def,
    max_def, List.getD]
  simp

lemma exampleRowCoeffs : rowCoeffs exampleState 0 = [0, 1, 2, 3, 4] := rfl

lemma exampleSlopes : relu_slopes_row exampleState 0 = [0, 0, 0] := by
  rw [relu_slopes_row, exampleRowCoeffs]
  norm_num [relu_slopes_list, show List.range 3 = [0, 1, 2] from rfl,
    List.getD]

lemma exampleTV : totalVariationRow exampleState 0 = 0 := by
  rw [totalVariationRow, exampleSlopes]
  norm_num

/-- Counterexample for C8: at the example spline (grid 1, so the
normalized boundary points coincide with the raw ones), the per-unit
BV value the code accumulates differs from TV(2) + the absolute
spline values at x = -1 and x = +1: the code uses x = 0 and x = 1. -/
theorem C8_boundary_points_counterexample :
    module_tv_bv exampleState true 0 ≠ specBVRow exampleState 0 := by
  simp only [module_tv_bv, specBVRow, fZerofOneAbsRow, if_true]
  rw [exampleTV, exampleForward_zero, exampleForward_one, exampleForward_neg1]
  norm_num

/-- C8 amended: the BV(2) value used per spline unit when the
lipschitz flag is set, and summed by lipschitz_bound, is
TV(2) + the absolute spline values at x = 0 and x = 1,
i.e. TV(2) + abs f(0) + abs f(1). -/
theorem C8_bv_uses_f_zero_f_one (s : SplineState) (i : ℕ) :
    module_tv_bv s true i
        = totalVariationRow s i
          + (|forward_noSave s i 0| + |forward_noSave s i 1|)
      ∧ totalVariationSum s + fZerofOneAbsSum s
        = ((List.range s.num_activations).map
            (fun j => module_tv_bv s true j)).sum := by
  constructor
  · simp [module_tv_bv, fZerofOneAbsRow]
  · simp only [totalVariationSum, fZerofOneAbsSum]
    rw [← sum_map_add]
    refine congrArg List.sum (List.map_congr_left ?_)
    intro j _
    simp [module_tv_bv]

/-- Counterexample for C9: calling the slope-to-coefficient conversion
on the small state rewrites the stored coefficient vector in place
(the coefficients view aliases coefficients_vect_), so the state after
the call differs from the state before it. -/
theorem C9_conversion_mutates_counterexample :
    (iterative_relu_slopes_to_coefficients smallState [[0]]).2.coefficients_vect
      ≠ smallState.coefficients_vect := by
  have hv : (iterative_relu_slopes_to_coefficients smallState [[0]]).2.coefficients_vect
      = [0, 1, 2] := by
    simp only [iterative_relu_slopes_to_coefficients,
      show List.range (smallState.num_activations * smallState.size)
          = [0, 1, 2] from rfl, List.map_cons, List.map_nil]
    norm_num [iterRowValue, iterCoeff, coeff, smallState, List.getD]
  rw [hv]
  norm_num [smallState]

/-- C9 amended: iterative_relu_slopes_to_coefficients computes the
reconstructed coefficients and returns them, but also overwrites the
stored coefficient vector with the same reconstructed values (the
returned tensor is the in-place-updated view of coefficients_vect_);
the result has one row of size entries per activation unit. -/
theorem C9_conversion_returns_and_mutates (s : SplineState)
    (slopes : List (List ℚ)) :
    (iterative_relu_slopes_to_coefficients s slopes).2.coefficients_vect
        = (iterative_relu_slopes_to_coefficients s slopes).1
      ∧ (iterative_relu_slopes_to_coefficients s slopes).1.length
        = s.num_activations * s.size :=
  ⟨rfl, by simp [iterative_relu_slopes_to_coefficients]⟩

/-- C10: the evaluation entry point fails with the shape assertion
before any spline computation whenever the unit dimension of the
(reshaped) input differs from num_activations, and evaluates every
element otherwise. -/
theorem C10_entry_shape_check (s : SplineState) (save_memory : Bool)
    (b : InputBatch) :
    (b.unitDim ≠ s.num_activations →
        forward_entry s save_memory b
          = Except.error ("input.size(1) != num_activations."))
      ∧ (b.unitDim = s.num_activations →
        forward_entry s save_memory b
          = Except.ok (b.elems.map (fun e =>
              if save_memory then forward_save s e.unit e.x
              else forward_noSave s e.unit e.x))) := by
  constructor
  · intro h
    simp [forward_entry, h]
  · intro h
    simp [forward_entry, h]

/-- Witness for C10: a unit dimension of 2 against one activation is
rejected; a matching unit dimension is evaluated. -/
theorem C10_entry_shape_check_witness :
    ((2 : ℕ) ≠ exampleState.num_activations
        ∧ forward_entry exampleState false ⟨2, []⟩
          = Except.error ("input.size(1) != num_activations."))
      ∧ ((1 : ℕ) = exampleState.num_activations
        ∧ forward_entry exampleState false ⟨1, []⟩ = Except.ok []) :=
  by
  refine ⟨⟨?_, ?_⟩, ?_, ?_⟩
  · norm_num [exampleState]
  · exact (C10_entry_shape_check exampleState false ⟨2, []⟩).1
      (by norm_num [exampleState])
  · norm_num [exampleState]
  · have h := (C10_entry_shape_check exampleState false ⟨1, []⟩).2
      (by norm_num [exampleState])
    simpa using h
